import Mathlib

/-!
Verification of the virtual-network provisioning core (pcocc `Networks.py`).

The definitions below are a shallow embedding of the Python source:
pure helpers (`%x` / `%d` formatting, MAC/GUID generation, device-id
allocation) become Lean functions on `Nat` / `List Char` / `String`;
stateful lifecycle phases become functions that return the list of
externally observable effects they perform together with an optional
raised error.  Machine integers in the source are plain Python ints,
so they are modelled by `Nat` / `Int` without wrap-around.
-/

namespace Pcocc

/-! ## Base-`b` digit strings

Models Python integer formatting: `"%x" % n` and `"%d" % n` produce the
base-16 / base-10 digits of `n`, most significant first, via repeated
`divmod`.  The fuel argument makes the definition structurally
recursive (fuel `n` always suffices since `n / b < n` for `b ≥ 2`). -/

def digitsRevFuel (b : Nat) : Nat → Nat → List Nat
  | _, 0 => []
  | 0, _ + 1 => []
  | f + 1, n + 1 => (n + 1) % b :: digitsRevFuel b f ((n + 1) / b)

/-- Little-endian base-`b` digits of `n` (empty for `n = 0`). -/
def digitsRev (b n : Nat) : List Nat := digitsRevFuel b n n

theorem digitsRevFuel_congr (b : Nat) (hb : 2 ≤ b) :
    ∀ n f g, n ≤ f → n ≤ g → digitsRevFuel b f n = digitsRevFuel b g n := by
  intro n
  induction n using Nat.strong_induction_on with
  | _ n ih =>
    intro f g hf hg
    match n, f, g with
    | 0, f, g => cases f <;> cases g <;> rfl
    | m + 1, f + 1, g + 1 =>
      show (m + 1) % b :: digitsRevFuel b f ((m + 1) / b) =
        (m + 1) % b :: digitsRevFuel b g ((m + 1) / b)
      have hdiv : (m + 1) / b < m + 1 :=
        Nat.div_lt_self (Nat.succ_pos m) (by omega)
      have h1 : (m + 1) / b ≤ f := by omega
      have h2 : (m + 1) / b ≤ g := by omega
      rw [ih ((m + 1) / b) hdiv f ((m + 1) / b) h1 (Nat.le_refl _),
          ih ((m + 1) / b) hdiv g ((m + 1) / b) h2 (Nat.le_refl _)]

theorem digitsRev_succ (b : Nat) (hb : 2 ≤ b) (n : Nat) (hn : n ≠ 0) :
    digitsRev b n = n % b :: digitsRev b (n / b) := by
  obtain ⟨m, rfl⟩ : ∃ m, n = m + 1 := ⟨n - 1, by omega⟩
  show digitsRevFuel b (m + 1) (m + 1) = _
  have hdiv : (m + 1) / b < m + 1 := Nat.div_lt_self (Nat.succ_pos m) (by omega)
  show (m + 1) % b :: digitsRevFuel b m ((m + 1) / b) = _
  rw [digitsRevFuel_congr b hb ((m + 1) / b) m ((m + 1) / b) (by omega) (Nat.le_refl _)]
  rfl

theorem digitsRevFuel_lt (b : Nat) (hb : 2 ≤ b) :
    ∀ f n d, d ∈ digitsRevFuel b f n → d < b := by
  intro f
  induction f with
  | zero => intro n d hd; cases n <;> simp [digitsRevFuel] at hd
  | succ f ih =>
    intro n d hd
    cases n with
    | zero => simp [digitsRevFuel] at hd
    | succ m =>
      simp only [digitsRevFuel, List.mem_cons] at hd
      rcases hd with h | h
      · subst h; exact Nat.mod_lt _ (by omega)
      · exact ih _ _ h

theorem digitsRev_lt (b : Nat) (hb : 2 ≤ b) (n d : Nat) (hd : d ∈ digitsRev b n) :
    d < b := digitsRevFuel_lt b hb n n d hd

/-- Value of a big-endian base-`b` digit list. -/
def ofDigitsBE (b : Nat) (l : List Nat) : Nat :=
  l.foldl (fun a d => b * a + d) 0

theorem foldl_digits_base (b : Nat) :
    ∀ (l : List Nat) (a : Nat),
      l.foldl (fun x d => b * x + d) a = a * b ^ l.length + ofDigitsBE b l := by
  intro l
  induction l with
  | nil => intro a; simp [ofDigitsBE]
  | cons d t ih =>
    intro a
    rw [List.foldl_cons, ih (b * a + d)]
    have h2 : ofDigitsBE b (d :: t) = (b * 0 + d) * b ^ t.length + ofDigitsBE b t := by
      unfold ofDigitsBE
      rw [List.foldl_cons, ih (b * 0 + d)]
      rfl
    rw [h2, List.length_cons]
    ring

theorem ofDigitsBE_append (b : Nat) (l1 l2 : List Nat) :
    ofDigitsBE b (l1 ++ l2) = ofDigitsBE b l1 * b ^ l2.length + ofDigitsBE b l2 := by
  unfold ofDigitsBE
  rw [List.foldl_append, foldl_digits_base]
  rfl

theorem ofDigitsBE_replicate_zero (b m : Nat) :
    ofDigitsBE b (List.replicate m 0) = 0 := by
  induction m with
  | zero => rfl
  | succ m ih =>
    unfold ofDigitsBE at ih ⊢
    show (List.replicate m 0).foldl (fun a d => b * a + d) (b * 0 + 0) = 0
    simpa using ih

theorem ofDigitsBE_zeros_append (b m : Nat) (l : List Nat) :
    ofDigitsBE b (List.replicate m 0 ++ l) = ofDigitsBE b l := by
  rw [ofDigitsBE_append, ofDigitsBE_replicate_zero]
  simp

/-- Recovering the value from the big-endian digits. -/
theorem ofDigitsBE_digitsRev (b : Nat) (hb : 2 ≤ b) (n : Nat) :
    ofDigitsBE b (digitsRev b n).reverse = n := by
  induction n using Nat.strong_induction_on with
  | _ n ih =>
    by_cases hn : n = 0
    · subst hn; rfl
    · rw [digitsRev_succ b hb n hn]
      have hdiv : n / b < n := Nat.div_lt_self (Nat.pos_of_ne_zero hn) (by omega)
      rw [List.reverse_cons, ofDigitsBE_append, ih (n / b) hdiv]
      have h1 : ofDigitsBE b [n % b] = n % b := by simp [ofDigitsBE]
      rw [h1]
      simp only [List.length_singleton, Nat.pow_one]
      rw [Nat.mul_comm]
      exact Nat.div_add_mod n b

theorem digitsRev_length_le (b : Nat) (hb : 2 ≤ b) :
    ∀ k n, n < b ^ k → (digitsRev b n).length ≤ k := by
  intro k
  induction k with
  | zero =>
    intro n hn
    have : n = 0 := by simpa using hn
    subst this; simp [digitsRev, digitsRevFuel]
  | succ k ih =>
    intro n hn
    by_cases hz : n = 0
    · subst hz; simp [digitsRev, digitsRevFuel]
    · rw [digitsRev_succ b hb n hz]
      have hdiv : n / b < b ^ k := by
        rw [Nat.div_lt_iff_lt_mul (by omega)]
        calc n < b ^ (k + 1) := hn
        _ = b ^ k * b := by ring
      simpa using ih (n / b) hdiv

/-! ## Character-level formatting

`hexStr` models Python `"%x" % n` (lowercase hex, no leading zeros,
`"0"` for zero); `decStr` models `"%d" % n` / `str(n)` for `n ≥ 0`.
`zfill` models `str.zfill`, `colonJoin2` models
`':'.join(s[i:i+2] for i in xrange(0, len(s), 2))`. -/

def hexStr (n : Nat) : List Char :=
  if n = 0 then ['0'] else ((digitsRev 16 n).reverse).map Nat.digitChar

def decStr (n : Nat) : List Char :=
  if n = 0 then ['0'] else ((digitsRev 10 n).reverse).map Nat.digitChar

def zfill (k : Nat) (s : List Char) : List Char :=
  List.replicate (k - s.length) '0' ++ s

def colonJoin2 : List Char → List Char
  | [] => []
  | [a] => [a]
  | [a, b] => [a, b]
  | a :: b :: rest => a :: b :: ':' :: colonJoin2 rest

/-- Numeric value of a hexadecimal digit character (0 for anything else). -/
def hexVal (c : Char) : Nat :=
  if c = '0' then 0 else if c = '1' then 1 else if c = '2' then 2
  else if c = '3' then 3 else if c = '4' then 4 else if c = '5' then 5
  else if c = '6' then 6 else if c = '7' then 7 else if c = '8' then 8
  else if c = '9' then 9 else if c = 'a' then 10 else if c = 'b' then 11
  else if c = 'c' then 12 else if c = 'd' then 13 else if c = 'e' then 14
  else if c = 'f' then 15 else 0

theorem hexVal_digitChar : ∀ d < 16, hexVal (Nat.digitChar d) = d := by decide

theorem digitChar_ne_colon : ∀ d < 16, Nat.digitChar d ≠ ':' := by decide

theorem digitChar_isDigit : ∀ d < 10, (Nat.digitChar d).isDigit = true := by decide

theorem hexStr_val (n : Nat) : ofDigitsBE 16 ((hexStr n).map hexVal) = n := by
  unfold hexStr
  by_cases hn : n = 0
  · subst hn; simp; rfl
  · simp only [hn, if_false]
    rw [List.map_map]
    have hmap : (digitsRev 16 n).reverse.map (hexVal ∘ Nat.digitChar) =
        (digitsRev 16 n).reverse := by
      have hpt : ∀ d ∈ (digitsRev 16 n).reverse, (hexVal ∘ Nat.digitChar) d = id d := by
        intro d hd
        rw [List.mem_reverse] at hd
        simpa using hexVal_digitChar d (digitsRev_lt 16 (by omega) n d hd)
      rw [List.map_congr_left hpt, List.map_id]
    rw [hmap]
    exact ofDigitsBE_digitsRev 16 (by omega) n

theorem zfill_hexStr_val (k n : Nat) :
    ofDigitsBE 16 ((zfill k (hexStr n)).map hexVal) = n := by
  unfold zfill
  rw [List.map_append, List.map_replicate]
  have h0 : hexVal '0' = 0 := rfl
  rw [h0, ofDigitsBE_zeros_append]
  exact hexStr_val n

theorem hexStr_ne_colon (n : Nat) : ∀ c ∈ hexStr n, c ≠ ':' := by
  intro c hc
  unfold hexStr at hc
  by_cases hn : n = 0
  · subst hn; simp at hc; subst hc; decide
  · simp only [hn, if_false, List.mem_map, List.mem_reverse] at hc
    obtain ⟨d, hd, rfl⟩ := hc
    exact digitChar_ne_colon d (digitsRev_lt 16 (by omega) n d hd)

theorem zfill_ne_colon (k n : Nat) : ∀ c ∈ zfill k (hexStr n), c ≠ ':' := by
  intro c hc
  unfold zfill at hc
  rw [List.mem_append] at hc
  rcases hc with h | h
  · rw [List.mem_replicate] at h
    rw [h.2]; decide
  · exact hexStr_ne_colon n c h

theorem hexStr_length_le (k n : Nat) (hk : 1 ≤ k) (hn : n < 16 ^ k) :
    (hexStr n).length ≤ k := by
  unfold hexStr
  by_cases hz : n = 0
  · simp [hz]; omega
  · simp only [hz, if_false, List.length_map, List.length_reverse]
    exact digitsRev_length_le 16 (by omega) k n hn

theorem zfill_length (k : Nat) (s : List Char) (h : s.length ≤ k) :
    (zfill k s).length = k := by
  unfold zfill
  simp [List.length_append, List.length_replicate]
  omega

theorem decStr_val (n : Nat) : ofDigitsBE 10 ((decStr n).map hexVal) = n := by
  unfold decStr
  by_cases hn : n = 0
  · subst hn; simp; rfl
  · simp only [hn, if_false]
    rw [List.map_map]
    have hmap : (digitsRev 10 n).reverse.map (hexVal ∘ Nat.digitChar) =
        (digitsRev 10 n).reverse := by
      have hpt : ∀ d ∈ (digitsRev 10 n).reverse, (hexVal ∘ Nat.digitChar) d = id d := by
        intro d hd
        rw [List.mem_reverse] at hd
        have hlt := digitsRev_lt 10 (by omega) n d hd
        simpa using hexVal_digitChar d (by omega)
      rw [List.map_congr_left hpt, List.map_id]
    rw [hmap]
    exact ofDigitsBE_digitsRev 10 (by omega) n

theorem decStr_all_digit (n : Nat) : ∀ c ∈ decStr n, c.isDigit = true := by
  intro c hc
  unfold decStr at hc
  by_cases hn : n = 0
  · subst hn; simp at hc; subst hc; decide
  · simp only [hn, if_false, List.mem_map, List.mem_reverse] at hc
    obtain ⟨d, hd, rfl⟩ := hc
    exact digitChar_isDigit d (digitsRev_lt 10 (by omega) n d hd)

theorem decStr_ne_nil (n : Nat) : decStr n ≠ [] := by
  unfold decStr
  by_cases hn : n = 0
  · simp [hn]
  · simp only [hn, if_false]
    intro h
    rw [List.map_eq_nil_iff, List.reverse_eq_nil_iff] at h
    have := digitsRev_succ 10 (by omega) n hn
    rw [h] at this
    exact List.noConfusion this

/-- Removing the separators of `colonJoin2` recovers the original string. -/
theorem colonJoin2_filter (s : List Char) (h : ∀ c ∈ s, c ≠ ':') :
    (colonJoin2 s).filter (fun c => c != ':') = s := by
  induction s using colonJoin2.induct with
  | case1 => rfl
  | case2 a =>
    have ha : (a != ':') = true := by simpa [bne_iff_ne] using h a (by simp)
    simp [colonJoin2, List.filter_cons, ha]
  | case3 a b =>
    have ha : (a != ':') = true := by simpa [bne_iff_ne] using h a (by simp)
    have hb : (b != ':') = true := by simpa [bne_iff_ne] using h b (by simp)
    simp [colonJoin2, List.filter_cons, ha, hb]
  | case4 a b t ht ih =>
    have ha : (a != ':') = true := by simpa [bne_iff_ne] using h a (by simp)
    have hb : (b != ':') = true := by simpa [bne_iff_ne] using h b (by simp)
    have htail : ∀ c ∈ t, c ≠ ':' := by
      intro c hc
      exact h c (by simp [hc])
    have hstep : colonJoin2 (a :: b :: t) = a :: b :: ':' :: colonJoin2 t := by
      cases t with
      | nil => exact absurd rfl ht
      | cons c ts => rfl
    rw [hstep]
    have hcolon : ((':' : Char) != ':') = false := by decide
    simp [List.filter_cons, ha, hb, hcolon, ih htail]

/-! ## Cluster descriptor

A VM record of the cluster descriptor: `rank` is the dense VM rank,
`host_rank` the rank of the node it runs on (`vm.get_host_rank()`;
`vm.is_on_node()` holds iff it equals the local node rank), `networks`
the names of the networks attached to it. -/

structure Vm where
  rank : Nat
  host_rank : Nat
  networks : List String
deriving DecidableEq

/-- Test from the source loops: `self.name in vm.networks`. -/
def netMem (name : String) (vm : Vm) : Bool := vm.networks.contains name

/-! ## Private-overlay MAC generation (`VPVNetwork._gen_vm_hwaddr`) -/

/-- Models `len(hw_prefix.replace(':', ''))`. -/
def macPrefLen (hwPref : String) : Nat :=
  (hwPref.data.filter (fun c => c != ':')).length

/-- Shallow embedding of `VPVNetwork._gen_vm_hwaddr`: the mac-prefix is
followed by `':'` and the rank as zero-padded hex, colon-separated in
pairs. -/
def gen_vm_hwaddr (macPref : String) (vm : Vm) : String :=
  String.mk (macPref.data ++
    ':' :: colonJoin2 (zfill (12 - macPrefLen macPref) (hexStr vm.rank)))

/-- Decoder for the suffix: drop the separators and read the hex value.
Used to show the encoding is injective. -/
def decodeRank (s : List Char) : Nat :=
  ofDigitsBE 16 ((s.filter (fun c => c != ':')).map hexVal)

theorem decodeRank_encode (k n : Nat) :
    decodeRank (colonJoin2 (zfill k (hexStr n))) = n := by
  unfold decodeRank
  rw [colonJoin2_filter _ (zfill_ne_colon k n)]
  exact zfill_hexStr_val k n

def isHexChar (c : Char) : Bool :=
  ('0' ≤ c && c ≤ '9') || ('a' ≤ c && c ≤ 'f') || ('A' ≤ c && c ≤ 'F')

/-- Matcher for the schema regex of mac-prefix:
`([0-9a-fA-F]{2}:){0,3}[0-9a-fA-F]{2}`, with the group budget as second
argument. -/
def macPrefGroups : List Char → Nat → Bool
  | [a, b], _ => isHexChar a && isHexChar b
  | a :: b :: ':' :: rest, n + 1 => isHexChar a && isHexChar b && macPrefGroups rest n
  | _, _ => false

/-- `mac-prefix` value accepted by the configuration schema. -/
def macPrefixOk (p : String) : Bool := macPrefGroups p.data 3

/-- C8: the private-overlay MAC generator is a pure function of the
mac-prefix and the VM rank (it is a Lean function of exactly those),
and it is injective: for a mac-prefix accepted by the schema and two
VMs with distinct ranks below `16 ^ (12 - prefix_len)`, the generated
MACs differ. -/
theorem pv_mac_deterministic_injective (p : String) (hp : macPrefixOk p = true)
    (vm1 vm2 : Vm)
    (h1 : vm1.rank < 16 ^ (12 - macPrefLen p))
    (h2 : vm2.rank < 16 ^ (12 - macPrefLen p))
    (hne : vm1.rank ≠ vm2.rank) :
    gen_vm_hwaddr p vm1 ≠ gen_vm_hwaddr p vm2 := by
  intro heq
  apply hne
  have hdata : p.data ++ ':' :: colonJoin2 (zfill (12 - macPrefLen p) (hexStr vm1.rank)) =
      p.data ++ ':' :: colonJoin2 (zfill (12 - macPrefLen p) (hexStr vm2.rank)) :=
    congrArg String.data heq
  have hsuffix := List.append_cancel_left hdata
  have hjoin : colonJoin2 (zfill (12 - macPrefLen p) (hexStr vm1.rank)) =
      colonJoin2 (zfill (12 - macPrefLen p) (hexStr vm2.rank)) := by
    injection hsuffix
  calc vm1.rank
      = decodeRank (colonJoin2 (zfill (12 - macPrefLen p) (hexStr vm1.rank))) :=
        (decodeRank_encode _ _).symm
    _ = decodeRank (colonJoin2 (zfill (12 - macPrefLen p) (hexStr vm2.rank))) := by
        rw [hjoin]
    _ = vm2.rank := decodeRank_encode _ _

/-- Witness: the default prefix is accepted by the schema and ranks 0
and 1 (both in range) give distinct MACs. -/
theorem pv_mac_deterministic_injective_witness :
    (macPrefixOk ("52:54:00") = true ∧
      (0 : Nat) < 16 ^ (12 - macPrefLen ("52:54:00")) ∧
      (1 : Nat) < 16 ^ (12 - macPrefLen ("52:54:00"))) ∧
    gen_vm_hwaddr ("52:54:00") ⟨0, 0, []⟩ ≠ gen_vm_hwaddr ("52:54:00") ⟨1, 0, []⟩ :=
  ⟨⟨by decide, by decide, by decide⟩,
    pv_mac_deterministic_injective ("52:54:00") (by decide) ⟨0, 0, []⟩ ⟨1, 0, []⟩
      (by decide) (by decide) (by decide)⟩

/-! ## IB GUID computation (`vm_get_guid`, `vm_get_node_guid`)

Shallow embedding of the deterministic VF GUIDs: Python
`'0xc0cc{0:02x}{1:02x}00{2:02x}{3:02x}00'.format(pkey_high, pkey_low,
vm_high, vm_low)` with `pkey_high = pkey_id / 0x100` etc. -/

/-- Models the format specifier `02x` (zero-padded two-digit hex). -/
def format02x (n : Nat) : List Char := zfill 2 (hexStr n)

def vm_get_guid (vm : Vm) (pkey_id : Nat) : String :=
  String.mk (('0' :: 'x' :: 'c' :: '0' :: 'c' :: 'c' :: []) ++
    (format02x (pkey_id / 0x100) ++ (format02x (pkey_id % 0x100) ++
    (('0' :: '0' :: []) ++
    (format02x (vm.rank / 0x100) ++ (format02x (vm.rank % 0x100) ++
    ('0' :: '0' :: [])))))))

def vm_get_node_guid (vm : Vm) (pkey_id : Nat) : String :=
  String.mk (('0' :: 'x' :: 'd' :: '0' :: 'c' :: 'c' :: []) ++
    (format02x (pkey_id / 0x100) ++ (format02x (pkey_id % 0x100) ++
    (('0' :: '0' :: []) ++
    (format02x (vm.rank / 0x100) ++ (format02x (vm.rank % 0x100) ++
    ('0' :: '0' :: [])))))))

/-- The `vf_guids` list the master composes and writes to
`global/opensm/pkeys/<pkey>` (`VIBNetwork.alloc_node_resources`):
`[vm_get_guid(vm, my_pkey) for vm in cluster.vms if self.name in vm.networks]`. -/
def ibSmVfGuids (name : String) (vms : List Vm) (myPkey : Nat) : List String :=
  (vms.filter (fun vm => netMem name vm)).map (fun vm => vm_get_guid vm myPkey)

/-- The port GUID each host programs on a local VM's VF in the MLX5
branch of `VIBNetwork.alloc_node_resources`:
`vf_set_guid(device_name, vf_addr, vm_get_guid(vm, my_pkey), ...)`. -/
def ibProgPortGuid (vm : Vm) (myPkey : Nat) : String := vm_get_guid vm myPkey

/-- Reads the 4 hex digits starting at position `i` of a GUID string. -/
def guidField (s : String) (i : Nat) : Nat :=
  ofDigitsBE 16 (((s.data.drop i).take 4).map hexVal)

theorem format02x_length (m : Nat) (hm : m < 256) : (format02x m).length = 2 :=
  zfill_length 2 (hexStr m) (hexStr_length_le 2 m (by omega) (by norm_num; omega))

theorem format02x_pair_val (m : Nat) :
    ofDigitsBE 16 ((format02x (m / 256) ++ format02x (m % 256)).map hexVal) = m := by
  rw [List.map_append, ofDigitsBE_append]
  have hlen : ((format02x (m % 256)).map hexVal).length = 2 := by
    rw [List.length_map]
    exact format02x_length (m % 256) (Nat.mod_lt _ (by omega))
  rw [hlen]
  unfold format02x
  rw [zfill_hexStr_val, zfill_hexStr_val]
  have : (16 : Nat) ^ 2 = 256 := by norm_num
  rw [this, Nat.mul_comm]
  exact Nat.div_add_mod m 256

/-- Take/drop decomposition of the GUID body shared by the port and
node GUID formats. -/
theorem guid_body_fields (pre A B C D : List Char)
    (hpre : pre.length = 6) (hA : A.length = 2) (hB : B.length = 2)
    (hC : C.length = 2) (hD : D.length = 2) :
    (pre ++ (A ++ (B ++ (('0' :: '0' :: []) ++ (C ++ (D ++ ('0' :: '0' :: []))))))).length = 18 ∧
    (pre ++ (A ++ (B ++ (('0' :: '0' :: []) ++ (C ++ (D ++ ('0' :: '0' :: []))))))).take 6 = pre ∧
    ((pre ++ (A ++ (B ++ (('0' :: '0' :: []) ++ (C ++ (D ++ ('0' :: '0' :: []))))))).drop 6).take 4 = A ++ B ∧
    ((pre ++ (A ++ (B ++ (('0' :: '0' :: []) ++ (C ++ (D ++ ('0' :: '0' :: []))))))).drop 12).take 4 = C ++ D := by
  refine ⟨?_, ?_, ?_, ?_⟩
  · simp [List.length_append, hpre, hA, hB, hC, hD]
  · exact List.take_left' hpre
  · rw [List.drop_left' hpre]
    have hassoc : A ++ (B ++ (('0' :: '0' :: []) ++ (C ++ (D ++ ('0' :: '0' :: []))))) =
        (A ++ B) ++ (('0' :: '0' :: []) ++ (C ++ (D ++ ('0' :: '0' :: [])))) := by
      simp [List.append_assoc]
    rw [hassoc]
    exact List.take_left' (by rw [List.length_append, hA, hB])
  · have hassoc : pre ++ (A ++ (B ++ (('0' :: '0' :: []) ++ (C ++ (D ++ ('0' :: '0' :: [])))))) =
        (pre ++ (A ++ (B ++ ('0' :: '0' :: [])))) ++ (C ++ (D ++ ('0' :: '0' :: []))) := by
      simp [List.append_assoc]
    rw [hassoc, List.drop_left' (by simp [List.length_append, hpre, hA, hB])]
    have hassoc2 : C ++ (D ++ ('0' :: '0' :: [])) = (C ++ D) ++ ('0' :: '0' :: []) := by
      simp [List.append_assoc]
    rw [hassoc2]
    exact List.take_left' (by rw [List.length_append, hC, hD])

/-- C9: the VM port and node GUIDs are pure functions of `(rank, pkey)`
with the fixed 18-character formats `0xc0cc{ph}{pl}00{rh}{rl}00` and
`0xd0cc{ph}{pl}00{rh}{rl}00` (positions 6-9 decode back to the pkey and
positions 12-15 to the rank), and for every VM of an IB network the
port GUID programmed on its VF in the MLX5 branch of `alloc` is exactly
the `vf_guids` entry the master writes to `global/opensm/pkeys`. -/
theorem ib_guid_formats_agree (vm : Vm) (pkey : Nat)
    (hr : vm.rank < 65536) (hp : pkey < 65536) :
    (vm_get_guid vm pkey).data.length = 18 ∧
    (vm_get_guid vm pkey).data.take 6 = ('0' :: 'x' :: 'c' :: '0' :: 'c' :: 'c' :: []) ∧
    (vm_get_node_guid vm pkey).data.take 6 = ('0' :: 'x' :: 'd' :: '0' :: 'c' :: 'c' :: []) ∧
    guidField (vm_get_guid vm pkey) 6 = pkey ∧
    guidField (vm_get_guid vm pkey) 12 = vm.rank ∧
    guidField (vm_get_node_guid vm pkey) 6 = pkey ∧
    guidField (vm_get_node_guid vm pkey) 12 = vm.rank ∧
    (∀ (name : String) (vms : List Vm), vm ∈ vms → netMem name vm = true →
      ibProgPortGuid vm pkey ∈ ibSmVfGuids name vms pkey) := by
  have hA := format02x_length (pkey / 256) (by omega)
  have hB := format02x_length (pkey % 256) (by omega)
  have hC := format02x_length (vm.rank / 256) (by omega)
  have hD := format02x_length (vm.rank % 256) (by omega)
  have hport := guid_body_fields ('0' :: 'x' :: 'c' :: '0' :: 'c' :: 'c' :: [])
    (format02x (pkey / 256)) (format02x (pkey % 256))
    (format02x (vm.rank / 256)) (format02x (vm.rank % 256)) rfl hA hB hC hD
  have hnode := guid_body_fields ('0' :: 'x' :: 'd' :: '0' :: 'c' :: 'c' :: [])
    (format02x (pkey / 256)) (format02x (pkey % 256))
    (format02x (vm.rank / 256)) (format02x (vm.rank % 256)) rfl hA hB hC hD
  have hpd : (vm_get_guid vm pkey).data =
      ('0' :: 'x' :: 'c' :: '0' :: 'c' :: 'c' :: []) ++
      (format02x (pkey / 256) ++ (format02x (pkey % 256) ++
      (('0' :: '0' :: []) ++ (format02x (vm.rank / 256) ++ (format02x (vm.rank % 256) ++
      ('0' :: '0' :: [])))))) := rfl
  have hnd : (vm_get_node_guid vm pkey).data =
      ('0' :: 'x' :: 'd' :: '0' :: 'c' :: 'c' :: []) ++
      (format02x (pkey / 256) ++ (format02x (pkey % 256) ++
      (('0' :: '0' :: []) ++ (format02x (vm.rank / 256) ++ (format02x (vm.rank % 256) ++
      ('0' :: '0' :: [])))))) := rfl
  refine ⟨?_, ?_, ?_, ?_, ?_, ?_, ?_, ?_⟩
  · rw [hpd]; exact hport.1
  · rw [hpd]; exact hport.2.1
  · rw [hnd]; exact hnode.2.1
  · unfold guidField; rw [hpd, hport.2.2.1]; exact format02x_pair_val pkey
  · unfold guidField; rw [hpd, hport.2.2.2]; exact format02x_pair_val vm.rank
  · unfold guidField; rw [hnd, hnode.2.2.1]; exact format02x_pair_val pkey
  · unfold guidField; rw [hnd, hnode.2.2.2]; exact format02x_pair_val vm.rank
  · intro name vms hvm hnm
    exact List.mem_map_of_mem _ (List.mem_filter.mpr ⟨hvm, hnm⟩)

/-- Witness for C9 at rank 3, pkey 0x2000 on network ib0. -/
theorem ib_guid_formats_agree_witness :
    guidField (vm_get_guid ⟨3, 0, [("ib0")]⟩ 8192) 6 = 8192 ∧
    guidField (vm_get_guid ⟨3, 0, [("ib0")]⟩ 8192) 12 = 3 ∧
    ibProgPortGuid ⟨3, 0, [("ib0")]⟩ 8192 ∈ ibSmVfGuids ("ib0") [⟨3, 0, [("ib0")]⟩] 8192 := by
  have h := ib_guid_formats_agree ⟨3, 0, [("ib0")]⟩ 8192 (by decide) (by decide)
  exact ⟨h.2.2.2.1, h.2.2.2.2.1, h.2.2.2.2.2.2.2 ("ib0") [⟨3, 0, [("ib0")]⟩]
    (by decide) (by decide)⟩

/-! ## Master-host determination (C4)

`VPVNetwork.alloc_node_resources` picks the master inside its first
loop; `VIBNetwork.alloc_node_resources` takes `sorted(net_hosts)[0]`. -/

/-- Loop of `VPVNetwork.alloc_node_resources`: `master` starts at -1
(modelled `none`), is set to the host rank of the first VM carrying the
network, and the loop breaks at the first local VM of the network; if
none is local the function returns early (`none` here). -/
def pvMasterLoop (name : String) (nodeRank : Nat) : List Vm → Option Nat → Option Nat
  | [], _ => none
  | vm :: rest, m =>
    if netMem name vm then
      if vm.host_rank == nodeRank then some (m.getD vm.host_rank)
      else pvMasterLoop name nodeRank rest (some (m.getD vm.host_rank))
    else pvMasterLoop name nodeRank rest m

def pvMaster (name : String) (nodeRank : Nat) (vms : List Vm) : Option Nat :=
  pvMasterLoop name nodeRank vms none

/-- Host ranks of the VMs carrying the network (`net_hosts` in
`VIBNetwork.alloc_node_resources`; it is a set in the source, but
duplicates do not change the minimum). -/
def ibNetHosts (name : String) (vms : List Vm) : List Nat :=
  (vms.filter (fun vm => netMem name vm)).map (fun vm => vm.host_rank)

/-- Models `batch.node_rank == sorted(net_hosts)[0]`: the head of the
sorted host list is its minimum. -/
def ibMasterFlag (name : String) (nodeRank : Nat) (vms : List Vm) : Bool :=
  match (ibNetHosts name vms).min? with
  | some m => nodeRank == m
  | none => false

/-- C4 counterexample: the claim that for both the private-overlay and
IB types the master is the lowest-ranked host carrying a VM of the
network, regardless of descriptor order, fails for the private-overlay
type: with VM rank 0 on host 5 listed before VM rank 1 on host 2, the
PV loop elects host 5 although the lowest carrying host is 2. -/
theorem pv_master_not_lowest_counterexample :
    pvMaster ("pv0") 5 [⟨0, 5, [("pv0")]⟩, ⟨1, 2, [("pv0")]⟩] = some 5 ∧
    (ibNetHosts ("pv0") [⟨0, 5, [("pv0")]⟩, ⟨1, 2, [("pv0")]⟩]).min? = some 2 ∧
    (5 : Nat) ≠ 2 := by decide

theorem pvMasterLoop_some (name : String) (nodeRank : Nat) :
    ∀ (l : List Vm) (x m : Nat),
      pvMasterLoop name nodeRank l (some x) = some m → m = x := by
  intro l
  induction l with
  | nil =>
    intro x m h
    exact absurd h (by simp [pvMasterLoop])
  | cons vm rest ih =>
    intro x m h
    unfold pvMasterLoop at h
    by_cases hn : netMem name vm = true
    · simp only [hn, if_true] at h
      by_cases hh : (vm.host_rank == nodeRank) = true
      · simp only [hh, if_true, Option.getD_some, Option.some.injEq] at h
        omega
      · simp only [hh, if_false, Bool.false_eq_true, Option.getD_some] at h
        exact ih x m h
    · simp only [hn, if_false, Bool.false_eq_true] at h
      exact ih x m h

/-- C4 amended: the IB master flag holds exactly on the host of lowest
rank among those carrying a VM of the network, while the
private-overlay master is the host of the first VM in descriptor order
that carries the network (not necessarily the lowest-ranked host). -/
theorem master_host_amended :
    (∀ (name : String) (nodeRank : Nat) (vms : List Vm),
      ibMasterFlag name nodeRank vms = true ↔
        (nodeRank ∈ ibNetHosts name vms ∧ ∀ h ∈ ibNetHosts name vms, nodeRank ≤ h)) ∧
    (∀ (name : String) (nodeRank : Nat) (vms : List Vm) (m : Nat),
      pvMaster name nodeRank vms = some m →
        (vms.find? (fun vm => netMem name vm)).map Vm.host_rank = some m) := by
  constructor
  · intro name nodeRank vms
    unfold ibMasterFlag
    cases hm : (ibNetHosts name vms).min? with
    | none =>
      rw [List.min?_eq_none_iff] at hm
      simp [hm]
    | some m =>
      rw [List.min?_eq_some_iff'] at hm
      constructor
      · intro hbeq
        have heq : nodeRank = m := by simpa using hbeq
        subst heq
        exact hm
      · rintro ⟨hmem, hle⟩
        have h1 : nodeRank ≤ m := hle m hm.1
        have h2 : m ≤ nodeRank := hm.2 nodeRank hmem
        simp [Nat.le_antisymm h1 h2]
  · intro name nodeRank vms
    induction vms with
    | nil =>
      intro m h
      exact absurd h (by simp [pvMaster, pvMasterLoop])
    | cons vm rest ih =>
      intro m h
      unfold pvMaster pvMasterLoop at h
      by_cases hn : netMem name vm = true
      · rw [List.find?_cons_of_pos _ hn]
        simp only [hn, if_true] at h
        by_cases hh : (vm.host_rank == nodeRank) = true
        · simp only [hh, if_true, Option.getD_none, Option.some.injEq] at h
          simp [Option.map, h]
        · simp only [hh, if_false, Bool.false_eq_true, Option.getD_none] at h
          have := pvMasterLoop_some name nodeRank rest vm.host_rank m h
          simp [Option.map, this]
      · rw [List.find?_cons_of_neg _ (by simpa using hn)]
        simp only [hn, if_false, Bool.false_eq_true] at h
        exact ih m h

/-- Witness: the amended statement applied to concrete clusters. -/
theorem master_host_amended_witness :
    ([(⟨0, 5, [("pv0")]⟩ : Vm), ⟨1, 2, [("pv0")]⟩].find?
        (fun vm => netMem ("pv0") vm)).map Vm.host_rank = some 5 ∧
    ibMasterFlag ("ib0") 2 [⟨0, 5, [("ib0")]⟩, ⟨1, 2, [("ib0")]⟩] = true :=
  ⟨master_host_amended.2 ("pv0") 5 [⟨0, 5, [("pv0")]⟩, ⟨1, 2, [("pv0")]⟩] 5 (by decide),
    (master_host_amended.1 ("ib0") 2 [⟨0, 5, [("ib0")]⟩, ⟨1, 2, [("ib0")]⟩]).mpr
      ⟨by decide, by decide⟩⟩

/-! ## Partial-failure persistence in `alloc_node_resources` (C5)

The per-VM allocation body (which touches host state and may raise) is
abstracted as a parameter `f : Vm → Except String String`; the models
record the list of allocation records written with `dump_resources`
(`batch.write_key('cluster', ...)`) and the propagated error, mirroring
the control flow of the source exactly. -/

/-- `"vm-%d" % vm.rank` (`VNetwork._vm_res_label`). -/
def vm_res_label (vm : Vm) : String :=
  String.mk (('v' :: 'm' :: '-' :: []) ++ decStr vm.rank)

/-- The VMs the per-VM loops act on: the two `continue` filters
`vm.is_on_node()` and `self.name in vm.networks`. -/
def localNetVms (name : String) (nodeRank : Nat) (vms : List Vm) : List Vm :=
  vms.filter (fun vm => vm.host_rank == nodeRank && netMem name vm)

/-- Loop of `VNATNetwork.alloc_node_resources` (also the shape of the
bridged type): there is no try/except, so an exception from
`_alloc_vm_res` propagates without any `dump_resources` call; on
success the record is dumped once at the end. -/
def natAllocVisit (f : Vm → Except String String) :
    List Vm → List (String × String) → List (List (String × String)) × Option String
  | [], acc => ([acc], none)
  | vm :: rest, acc =>
    match f vm with
    | .ok r => natAllocVisit f rest (acc ++ [(vm_res_label vm, r)])
    | .error e => ([], some e)

def natAllocModel (name : String) (nodeRank : Nat) (f : Vm → Except String String)
    (vms : List Vm) : List (List (String × String)) × Option String :=
  natAllocVisit f (localNetVms name nodeRank vms) []

/-- Loop of `VHostIBNetwork.alloc_node_resources` (same shape in
`VGenericPCI.alloc_node_resources` and the per-VM loop of
`VIBNetwork.alloc_node_resources`): the per-VM body is wrapped in
`try/except` which calls `self.dump_resources(net_res)` and re-raises. -/
def hostibAllocVisit (f : Vm → Except String String) :
    List Vm → List (String × String) → List (List (String × String)) × Option String
  | [], acc => ([acc], none)
  | vm :: rest, acc =>
    match f vm with
    | .ok r => hostibAllocVisit f rest (acc ++ [(vm_res_label vm, r)])
    | .error e => ([acc], some e)

def hostibAllocModel (name : String) (nodeRank : Nat) (f : Vm → Except String String)
    (vms : List Vm) : List (List (String × String)) × Option String :=
  hostibAllocVisit f (localNetVms name nodeRank vms) []

/-- The record entries of the successful prefix of the per-VM loop. -/
def okLongest (f : Vm → Except String String) : List Vm → List (String × String)
  | [] => []
  | vm :: rest =>
    match f vm with
    | .ok r => (vm_res_label vm, r) :: okLongest f rest
    | .error _ => []

/-- The first error raised by the per-VM loop, if any. -/
def firstErr (f : Vm → Except String String) : List Vm → Option String
  | [] => none
  | vm :: rest =>
    match f vm with
    | .ok _ => firstErr f rest
    | .error e => some e

theorem hostibAllocVisit_eq (f : Vm → Except String String) :
    ∀ (l : List Vm) (acc : List (String × String)),
      hostibAllocVisit f l acc = ([acc ++ okLongest f l], firstErr f l) := by
  intro l
  induction l with
  | nil => intro acc; simp [hostibAllocVisit, okLongest, firstErr]
  | cons vm rest ih =>
    intro acc
    unfold hostibAllocVisit okLongest firstErr
    cases f vm with
    | ok r =>
      dsimp only
      rw [ih (acc ++ [(vm_res_label vm, r)])]
      simp
    | error e => simp

theorem natAllocVisit_eq (f : Vm → Except String String) :
    ∀ (l : List Vm) (acc : List (String × String)),
      natAllocVisit f l acc =
        (match firstErr f l with
          | none => [acc ++ okLongest f l]
          | some _ => [], firstErr f l) := by
  intro l
  induction l with
  | nil => intro acc; simp [natAllocVisit, okLongest, firstErr]
  | cons vm rest ih =>
    intro acc
    unfold natAllocVisit okLongest firstErr
    cases f vm with
    | ok r =>
      dsimp only
      rw [ih (acc ++ [(vm_res_label vm, r)])]
      cases firstErr f rest <;> simp
    | error e => simp

/-- C5 counterexample: for the NAT type (and the identically-shaped
bridged and private-overlay loops) a failure on the second local VM
propagates without any record having been written: the list of
`dump_resources` calls is empty even though vm-0 was already
allocated. -/
theorem nat_alloc_no_partial_dump_counterexample :
    natAllocModel ("mynat") 0
      (fun vm => if vm.rank == 0 then .ok ("nattap0") else .error ("boom"))
      [⟨0, 0, [("mynat")]⟩, ⟨1, 0, [("mynat")]⟩] = ([], some ("boom")) := by
  decide

/-- C5 amended: only the host-IB, IB and generic-PCI loops persist the
partial allocation record before the exception propagates (exactly one
dump containing the successfully allocated prefix); the NAT, bridged
and private-overlay loops write nothing on a partial failure. -/
theorem alloc_partial_dump_amended (name : String) (nodeRank : Nat)
    (f : Vm → Except String String) (vms : List Vm) :
    hostibAllocModel name nodeRank f vms =
      ([okLongest f (localNetVms name nodeRank vms)],
        firstErr f (localNetVms name nodeRank vms)) ∧
    natAllocModel name nodeRank f vms =
      (match firstErr f (localNetVms name nodeRank vms) with
        | none => [okLongest f (localNetVms name nodeRank vms)]
        | some _ => [], firstErr f (localNetVms name nodeRank vms)) := by
  constructor
  · unfold hostibAllocModel
    rw [hostibAllocVisit_eq]
    simp
  · unfold natAllocModel
    rw [natAllocVisit_eq]
    cases firstErr f (localNetVms name nodeRank vms) <;> simp

/-! ## Device-id allocation and reverse-NAT ports (C6)

`find_free_dev_id`, `dev_name_from_id`, `id_from_dev_name` and the
reverse-NAT block of `VNATNetwork._alloc_vm_res`. -/

def insertSorted (x : Nat) : List Nat → List Nat
  | [] => [x]
  | y :: rest => if x ≤ y then x :: y :: rest else y :: insertSorted x rest

/-- Models Python `sorted(used_ids)`. -/
def sortNat (l : List Nat) : List Nat := l.foldr insertSorted []

/-- Loop of `find_free_dev_id`: the first position `pos` (from 0) with
`pos < sorted_ids[pos]`, else `len(used_ids)`. -/
def findFreeFrom (usedLen : Nat) : Nat → List Nat → Nat
  | _, [] => usedLen
  | pos, x :: rest => if pos < x then pos else findFreeFrom usedLen (pos + 1) rest

def find_free_dev_id (used : List Nat) : Nat :=
  findFreeFrom used.length 0 (sortNat used)

/-- `"%s%d" % (prefix, dev_id)`. -/
def dev_name_from_id (tapPref : String) (devId : Nat) : String :=
  String.mk (tapPref.data ++ decStr devId)

/-- Models `id_from_dev_name`: `re.match(r"%s(\d+)" % prefix, devname)`
with the prefix taken literally; -1 when the regex does not match. -/
def id_from_dev_name (tapPref devname : String) : Int :=
  if tapPref.data.isPrefixOf devname.data then
    let ds := (devname.data.drop tapPref.data.length).takeWhile Char.isDigit
    if ds.isEmpty then -1 else Int.ofNat (ofDigitsBE 10 (ds.map hexVal))
  else -1

theorem takeWhile_all {p : Char → Bool} :
    ∀ l : List Char, (∀ c ∈ l, p c = true) → l.takeWhile p = l := by
  intro l
  induction l with
  | nil => intro _; rfl
  | cons a t ih =>
    intro h
    rw [List.takeWhile_cons, h a (by simp)]
    simp [ih (fun c hc => h c (by simp [hc]))]

theorem id_from_dev_name_roundtrip (tapPref : String) (i : Nat) :
    id_from_dev_name tapPref (dev_name_from_id tapPref i) = (i : Int) := by
  unfold id_from_dev_name dev_name_from_id
  have hpre : tapPref.data.isPrefixOf (tapPref.data ++ decStr i) = true := by
    rw [List.isPrefixOf_iff_prefix]
    exact List.prefix_append _ _
  simp only [hpre, if_true, List.drop_left]
  rw [takeWhile_all (decStr i) (decStr_all_digit i)]
  have hne : (decStr i).isEmpty = false := by
    rw [List.isEmpty_eq_false_iff_exists_mem]
    cases hd : decStr i with
    | nil => exact absurd hd (decStr_ne_nil i)
    | cons a t => exact ⟨a, by simp⟩
  simp only [hne, if_false, Bool.false_eq_true]
  rw [decStr_val]
  rfl

/-- Reverse-NAT block of `VNATNetwork._alloc_vm_res`: the tap id is the
lowest one free, the host port is `min_host_port` plus the id parsed
back from the tap name, and an error is raised when the port exceeds
`max_host_port`. -/
def natRnatVmAlloc (tapPref : String) (minPort maxPort : Nat) (used : List Nat) :
    Except String (Nat × Int) :=
  let natId := find_free_dev_id used
  let tapName := dev_name_from_id tapPref natId
  let hostPort : Int := (minPort : Int) + id_from_dev_name tapPref tapName
  if hostPort > (maxPort : Int) then
    .error ("Unable to find a free host port for reverse NAT")
  else .ok (natId, hostPort)

/-- Sequential reverse-NAT allocation for `n` local VMs of
`VNATNetwork.alloc_node_resources`, starting from the given set of
existing tap ids; each created tap occupies its id, and the first
raised error aborts the loop. -/
def natRnatSeq (tapPref : String) (minPort maxPort : Nat) :
    Nat → List Nat → List (Nat × Int) × Option String
  | 0, _ => ([], none)
  | n + 1, used =>
    match natRnatVmAlloc tapPref minPort maxPort used with
    | .error e => ([], some e)
    | .ok (natId, hp) =>
      let res := natRnatSeq tapPref minPort maxPort n (used ++ [natId])
      ((natId, hp) :: res.1, res.2)

/-- C6: reverse-NAT assigns host port `min-host-port + tap id` and
raises exactly when that port exceeds `max-host-port`; in particular
with min = max = 10022 and two local VMs allocated from a tap-free
node, the first VM gets host port 10022 and the second fails. -/
theorem nat_rnat_port_selection :
    (∀ (tapPref : String) (minPort maxPort : Nat) (used : List Nat),
      natRnatVmAlloc tapPref minPort maxPort used =
        if minPort + find_free_dev_id used > maxPort then
          .error ("Unable to find a free host port for reverse NAT")
        else .ok (find_free_dev_id used,
          ((minPort + find_free_dev_id used : Nat) : Int))) ∧
    natRnatSeq ("nattap") 10022 10022 2 [] =
      ([(0, ((10022 : Nat) : Int))],
        some ("Unable to find a free host port for reverse NAT")) := by
  constructor
  · intro tapPref minPort maxPort used
    unfold natRnatVmAlloc
    dsimp only
    rw [id_from_dev_name_roundtrip]
    by_cases h : minPort + find_free_dev_id used > maxPort
    · rw [if_pos (by omega), if_pos h]
    · rw [if_neg (by omega), if_neg h]
      simp only [Except.ok.injEq, Prod.mk.injEq]
      exact ⟨trivial, by push_cast; ring⟩
  · decide

/-! ## Generic-PCI allocation failure (C7)

`VGenericPCI.alloc_node_resources`: the `for dev_addr in
self._device_addrs ... else: raise NetworkSetupError('unable to find a
free PCI device of type {1}'.format(self.name))` search.  Python
evaluates the `.format(...)` call before the exception object exists;
`'{1}'.format(x)` with a single argument raises
`IndexError: tuple index out of range`. -/

inductive PyExn where
  | netSetup (msg : String)
  | indexErr (msg : String)
deriving DecidableEq

/-- Positional lookup done by `str.format` for a placeholder with
index `idx` (`none` = `IndexError`). -/
def strFormatArg (args : List String) (idx : Nat) : Option String :=
  args.get? idx

/-- The device search of `VGenericPCI.alloc_node_resources`: the first
configured address not bound to vfio-pci, or the for-else raise whose
message formatting uses placeholder `{1}` with the single argument
`self.name`. -/
def vgpFindFreeDev (deviceAddrs bound : List String) (name : String) :
    Except PyExn String :=
  match deviceAddrs.find? (fun a => !(bound.contains a)) with
  | some a => .ok a
  | none =>
    match strFormatArg [name] 1 with
    | some s => .error (.netSetup (("unable to find a free PCI device of type ") ++ s))
    | none => .error (.indexErr ("tuple index out of range"))

/-- Per-node loop of `VGenericPCI.alloc_node_resources`: each relevant
VM takes the first free device (which then appears bound to vfio-pci
for the next VM); an exception triggers `dump_resources(net_res)` of
the partial record and re-raises. -/
def vgpAllocNode (deviceAddrs : List String) (name : String) (netName : String)
    (nodeRank : Nat) (vms : List Vm) (bound : List String) :
    List (List (String × String)) × Option PyExn :=
  vgpAllocLoop deviceAddrs name (localNetVms netName nodeRank vms) bound []
where
  vgpAllocLoop (deviceAddrs : List String) (name : String) :
      List Vm → List String → List (String × String) →
      List (List (String × String)) × Option PyExn
    | [], _, acc => ([acc], none)
    | vm :: rest, bound, acc =>
      match vgpFindFreeDev deviceAddrs bound name with
      | .ok a => vgpAllocLoop deviceAddrs name rest (bound ++ [a])
          (acc ++ [(vm_res_label vm, a)])
      | .error e => ([acc], some e)

/-- C7: when every configured address is already bound to the
passthrough driver, the for-else raise path does not produce the
intended NetworkSetupError: evaluating `'...of type {1}'.format(name)`
raises `IndexError` instead, which is what propagates out of
`alloc_node_resources` (after the empty partial record is dumped). -/
theorem vgp_alloc_exhausted_raises_index_error
    (deviceAddrs bound : List String) (name netName : String)
    (nodeRank : Nat) (vms : List Vm)
    (hall : ∀ a ∈ deviceAddrs, a ∈ bound)
    (hvm : ∃ vm ∈ vms, vm.host_rank = nodeRank ∧ netName ∈ vm.networks) :
    vgpFindFreeDev deviceAddrs bound name =
      .error (.indexErr ("tuple index out of range")) ∧
    vgpAllocNode deviceAddrs name netName nodeRank vms bound =
      ([[]], some (.indexErr ("tuple index out of range"))) := by
  have hfind : vgpFindFreeDev deviceAddrs bound name =
      .error (.indexErr ("tuple index out of range")) := by
    unfold vgpFindFreeDev
    have hnone : deviceAddrs.find? (fun a => !(bound.contains a)) = none := by
      rw [List.find?_eq_none]
      intro a ha
      have hca : bound.contains a = true := List.elem_eq_true_of_mem (hall a ha)
      rw [hca]
      decide
    rw [hnone]
    rfl
  refine ⟨hfind, ?_⟩
  obtain ⟨vm, hvmm, hhost, hnet⟩ := hvm
  have hrel : localNetVms netName nodeRank vms ≠ [] := by
    intro hempty
    have : vm ∈ localNetVms netName nodeRank vms := by
      unfold localNetVms
      rw [List.mem_filter]
      refine ⟨hvmm, ?_⟩
      have hb1 : (vm.host_rank == nodeRank) = true := by
        rw [hhost]
        simp
      have hb2 : netMem netName vm = true := List.elem_eq_true_of_mem hnet
      rw [hb1, hb2]
      decide
    rw [hempty] at this
    exact absurd this (List.not_mem_nil vm)
  unfold vgpAllocNode
  cases hl : localNetVms netName nodeRank vms with
  | nil => exact absurd hl hrel
  | cons v rest =>
    unfold vgpAllocNode.vgpAllocLoop
    rw [hfind]

/-- Witness: one configured address, already bound, one local VM. -/
theorem vgp_alloc_exhausted_raises_index_error_witness :
    ((∀ a ∈ [("0000:01:00.0")], a ∈ [("0000:01:00.0")]) ∧
      (∃ vm ∈ [(⟨0, 0, [("pci0")]⟩ : Vm)], vm.host_rank = 0 ∧ ("pci0") ∈ vm.networks)) ∧
    vgpAllocNode [("0000:01:00.0")] ("pci0") ("pci0") 0 [⟨0, 0, [("pci0")]⟩]
        [("0000:01:00.0")] =
      ([[]], some (.indexErr ("tuple index out of range"))) :=
  ⟨⟨by decide, by decide⟩,
    (vgp_alloc_exhausted_raises_index_error [("0000:01:00.0")] [("0000:01:00.0")]
      ("pci0") ("pci0") 0 [⟨0, 0, [("pci0")]⟩] (by decide) (by decide)).2⟩

/-! ## Partition-key daemon entry filtering (C2)

One iteration of the child filter in `VIBNetwork.pkey_daemon`: skip the
directory key, match the child name against
`re.match(r'{0}/(0x\d\d\d\d)$'.format(pkey_path), child.key)`, then
load the YAML value and validate it against `pkey_entry_schema`. -/

/-- A child value that parsed as YAML into the expected shape; `none`
in the daemon model below stands for a value that failed YAML parsing. -/
structure PkeyEntry where
  vf_guids : List String
  host_guids : List String
deriving DecidableEq

/-- The schema pattern for GUID strings in `pkey_entry_schema`:
`^0x[0-9a-zA-Z]{16}$`. -/
def guidPatternOk (s : String) : Bool :=
  match s.data with
  | '0' :: 'x' :: rest => rest.length == 16 && rest.all Char.isAlphanum
  | _ => false

/-- Validation against `pkey_entry_schema` (both required keys present
by the shape, every item matching the GUID pattern). -/
def pkeyEntryValid (e : PkeyEntry) : Bool :=
  e.vf_guids.all guidPatternOk && e.host_guids.all guidPatternOk

/-- The daemon's name filter: the child key must be exactly the
directory path, a slash, and `0x` followed by four DECIMAL digits
(`\d` in the source regex); the captured group is returned. -/
def pkeyNameMatch (dirPath key : String) : Option String :=
  if dirPath.data.isPrefixOf key.data then
    match key.data.drop dirPath.data.length with
    | '/' :: '0' :: 'x' :: d1 :: d2 :: d3 :: d4 :: [] =>
      if d1.isDigit && d2.isDigit && d3.isDigit && d4.isDigit then
        some (String.mk ('0' :: 'x' :: d1 :: d2 :: d3 :: d4 :: []))
      else none
    | _ => none
  else none

/-- The pkey set one daemon iteration renders into the partition file:
children of `global/opensm/pkeys` surviving the directory-key skip, the
name regex, YAML parsing and schema validation. -/
def pkey_daemon_entries (dirPath : String)
    (children : List (String × Option PkeyEntry)) : List (String × PkeyEntry) :=
  children.filterMap fun child =>
    if child.1 = dirPath then none
    else
      match pkeyNameMatch dirPath child.1 with
      | none => none
      | some pkey =>
        match child.2 with
        | some config => if pkeyEntryValid config then some (pkey, config) else none
        | none => none

/-- C2: the daemon's regex only accepts `0x` followed by four DECIMAL
digits, so a schema-valid entry under `0x1a2b` (a name `hex(my_pkey)`
produces for most pkeys) is skipped even though the claim says every
four-HEX-digit child is included; all-decimal names such as `0x1234`
are kept. -/
theorem pkey_daemon_skips_hex_letter_names :
    pkeyEntryValid ⟨[("0xc0cc120000030000")], [("0x0002c90300317d31")]⟩ = true ∧
    pkey_daemon_entries ("global/opensm/pkeys")
      [(("global/opensm/pkeys/0x1a2b"),
        some ⟨[("0xc0cc120000030000")], [("0x0002c90300317d31")]⟩)] = [] ∧
    pkey_daemon_entries ("global/opensm/pkeys")
      [(("global/opensm/pkeys/0x1234"),
        some ⟨[("0xc0cc120000030000")], [("0x0002c90300317d31")]⟩)] =
      [(("0x1234"), ⟨[("0xc0cc120000030000")], [("0x0002c90300317d31")]⟩)] := by
  decide

/-! ## NAT firewall rules (C3)

The kernel firewall is modelled as the list of installed
`(rule, chain, table)` strings; `ipt_append_rule_idemp` /
`ipt_delete_rule_idemp` match rule strings exactly as the source does
(`iptables -C` with the literal text).  The rule-format helpers below
are shared by `init_node` and `cleanup_node`, which instantiate them
with `_vm_network_bits` and `_nat_network_bits` respectively. -/

abbrev IptRule := String × String × String

def ipt_append_rule_idemp (r : IptRule) (s : List IptRule) : List IptRule :=
  if r ∈ s then s else s ++ [r]

def ipt_delete_rule_idemp (r : IptRule) (s : List IptRule) : List IptRule :=
  if r ∈ s then s.erase r else s

/-- `"%s/%d"` network notation. -/
def cidr (net : String) (bits : Nat) : String :=
  net ++ ("/") ++ String.mk (decStr bits)

def ruleFwdSsh (net : String) (bits : Nat) (br : String) : String :=
  ("-d ") ++ cidr net bits ++ (" -o ") ++ br ++
  (" -p tcp -m tcp --dport 22 -m state --state NEW -j ACCEPT")

def ruleFwdEstab (net : String) (bits : Nat) (br : String) : String :=
  ("-d ") ++ cidr net bits ++ (" -o ") ++ br ++
  (" -m state --state RELATED,ESTABLISHED -j ACCEPT")

def ruleOutAll (net : String) (bits : Nat) (br : String) : String :=
  ("-s ") ++ cidr net bits ++ (" -i ") ++ br ++ (" -j ACCEPT")

def ruleOutEstab (net : String) (bits : Nat) (br : String) : String :=
  ("-s ") ++ cidr net bits ++ (" -i ") ++ br ++
  (" -m state --state RELATED,ESTABLISHED -j ACCEPT")

def ruleMasqProto (net : String) (bits : Nat) (proto : String) : String :=
  ("-s ") ++ cidr net bits ++ (" ! -d ") ++ cidr net bits ++ (" -p ") ++ proto ++
  (" -j MASQUERADE --to-ports 1024-65535")

def ruleMasqAll (net : String) (bits : Nat) : String :=
  ("-s ") ++ cidr net bits ++ (" ! -d ") ++ cidr net bits ++ (" -j MASQUERADE")

/-- The firewall inserts of `VNATNetwork.init_node`, in source order —
all six rule strings are built with `_vm_network_bits`. -/
def nat_init_node_ipt (natNet : String) (vmBits : Nat) (br : String)
    (allowOutbound : Bool) (s : List IptRule) : List IptRule :=
  let s1 := ipt_append_rule_idemp (ruleFwdSsh natNet vmBits br, ("FORWARD"), ("")) s
  let s2 := ipt_append_rule_idemp (ruleFwdEstab natNet vmBits br, ("FORWARD"), ("")) s1
  let s3 := if allowOutbound then
      ipt_append_rule_idemp (ruleOutAll natNet vmBits br, ("FORWARD"), ("")) s2
    else
      ipt_append_rule_idemp (ruleOutEstab natNet vmBits br, ("FORWARD"), ("")) s2
  let s4 := ipt_append_rule_idemp
    (ruleMasqProto natNet vmBits ("tcp"), ("POSTROUTING"), ("nat")) s3
  let s5 := ipt_append_rule_idemp
    (ruleMasqProto natNet vmBits ("udp"), ("POSTROUTING"), ("nat")) s4
  ipt_append_rule_idemp (ruleMasqAll natNet vmBits, ("POSTROUTING"), ("nat")) s5

/-- The firewall deletions of `VNATNetwork.cleanup_node`, in source
order: the RELATED,ESTABLISHED, ssh and MASQUERADE deletions are built
with `_nat_network_bits`; only the allow-outbound deletion uses
`_vm_network_bits`. -/
def nat_cleanup_node_ipt (natNet : String) (natBits vmBits : Nat) (br : String)
    (allowOutbound : Bool) (s : List IptRule) : List IptRule :=
  let s1 := ipt_delete_rule_idemp (ruleFwdEstab natNet natBits br, ("FORWARD"), ("")) s
  let s2 := if allowOutbound then
      ipt_delete_rule_idemp (ruleOutAll natNet vmBits br, ("FORWARD"), ("")) s1
    else
      ipt_delete_rule_idemp (ruleOutEstab natNet vmBits br, ("FORWARD"), ("")) s1
  let s3 := ipt_delete_rule_idemp (ruleFwdSsh natNet natBits br, ("FORWARD"), ("")) s2
  let s4 := ipt_delete_rule_idemp
    (ruleMasqProto natNet natBits ("tcp"), ("POSTROUTING"), ("nat")) s3
  let s5 := ipt_delete_rule_idemp
    (ruleMasqProto natNet natBits ("udp"), ("POSTROUTING"), ("nat")) s4
  ipt_delete_rule_idemp (ruleMasqAll natNet natBits, ("POSTROUTING"), ("nat")) s5

/-- C3: with nat-network /16 and vm-network /24 the ssh FORWARD rule
inserted by `init_node` (built with `_vm_network_bits` = 24) survives
`cleanup_node`, whose deletion uses `_nat_network_bits` = 16 — so the
claim that every installed rule is removed for every accepted
configuration fails; with equal prefix lengths the cleanup does remove
everything. -/
theorem nat_cleanup_leaves_rules_on_bit_mismatch :
    (ruleFwdSsh ("10.252.0.0") 24 ("natbr0"), ("FORWARD"), ("")) ∈
      nat_cleanup_node_ipt ("10.252.0.0") 16 24 ("natbr0") true
        (nat_init_node_ipt ("10.252.0.0") 24 ("natbr0") true []) ∧
    nat_cleanup_node_ipt ("10.252.0.0") 16 16 ("natbr0") true
      (nat_init_node_ipt ("10.252.0.0") 16 ("natbr0") true []) = [] := by
  decide

/-! ## IB `free_node_resources` (C1)

Effect-level embedding of `VIBNetwork.free_node_resources` and the
`VHostIBNetwork._free_node_vfs` helper it calls.  The helper's per-VM
body calls `vf_unbind_vfio(vf_addr)` — a name nowhere defined in the
module (only `pci_unbind_vfio` exists) — so after the record is loaded
and the per-VM `vf_addr` entry looked up, the first relevant VM raises
`NameError`; the MLX4/MLX5 pkey/GUID teardown after that call and the
rest of the loop are unreachable. -/

/-- The per-host IB allocation record (`{master, pkey, pkey_index,
vm-i: {vf_addr}}`). -/
structure IbRec where
  master : Bool
  pkey : Nat
  pkeyIndex : Nat
  vmVfs : List (String × String)
deriving DecidableEq

inductive IbEff where
  | readRec
  | delPkeyEntry (pkey : Nat)
  | idaFreeOne (idx : Nat)
  | delNetSubtree
deriving DecidableEq

/-- Loop of `VHostIBNetwork._free_node_vfs`: skip VMs that are not
local or not on the network; at the first relevant VM load the record
(`load_resources`, raising when the key is absent), look up
`net_res[vm_label]['vf_addr']` (a `KeyError` when missing), then hit
the undefined name `vf_unbind_vfio` — the loop never gets past its
first relevant VM and performs no VF teardown. -/
def ibFreeVfsLoop (name : String) (nodeRank : Nat) (kv : Option IbRec) :
    List Vm → List IbEff → List IbEff × Option String
  | [], effs => (effs, none)
  | vm :: rest, effs =>
    if vm.host_rank == nodeRank && netMem name vm then
      match kv with
      | none =>
        (effs ++ [.readRec], some (("unable to load resources for network ") ++ name))
      | some r =>
        match r.vmVfs.lookup (vm_res_label vm) with
        | none => (effs ++ [.readRec], some (("KeyError: ") ++ vm_res_label vm))
        | some _ =>
          (effs ++ [.readRec],
            some ("NameError: global name vf_unbind_vfio is not defined"))
    else ibFreeVfsLoop name nodeRank kv rest effs

/-- Shallow embedding of `VIBNetwork.free_node_resources`: `net_res`
is initialized to `None`, `_free_node_vfs(cluster)` runs (its loaded
record is local to the helper, and it raises `NameError` at the first
relevant VM), and the master cleanup — delete the `opensm/pkeys`
entry, free the pkey index, delete the network's key-value subtree —
is guarded by `if net_res and net_res['master']` with `net_res` still
`None`. -/
def ib_free_node_resources (name : String) (nodeRank : Nat) (vms : List Vm)
    (kv : Option IbRec) : List IbEff × Option String :=
  let netRes : Option IbRec := none
  let r := ibFreeVfsLoop name nodeRank kv vms []
  match r.2 with
  | some e => (r.1, some e)
  | none =>
    match netRes with
    | some rec0 =>
      if rec0.master then
        (r.1 ++ [.delPkeyEntry rec0.pkey, .idaFreeOne rec0.pkeyIndex, .delNetSubtree],
          none)
      else (r.1, none)
    | none => (r.1, none)

/-- The three effects only the master branch can produce. -/
def isMasterCleanupEff : IbEff → Bool
  | .delPkeyEntry _ => true
  | .idaFreeOne _ => true
  | .delNetSubtree => true
  | .readRec => false

theorem ibFreeVfsLoop_no_master (name : String) (nodeRank : Nat)
    (kv : Option IbRec) :
    ∀ (l : List Vm) (effs : List IbEff),
      effs.all (fun e => !(isMasterCleanupEff e)) = true →
      ((ibFreeVfsLoop name nodeRank kv l effs).1.all
        (fun e => !(isMasterCleanupEff e))) = true := by
  intro l
  induction l with
  | nil =>
    intro effs h
    exact h
  | cons vm rest ih =>
    intro effs h
    unfold ibFreeVfsLoop
    by_cases hc : (vm.host_rank == nodeRank && netMem name vm) = true
    · simp only [hc, if_true]
      split
      · dsimp only
        rw [List.all_append, h]
        decide
      · split
        · dsimp only
          rw [List.all_append, h]
          decide
        · dsimp only
          rw [List.all_append, h]
          decide
    · simp only [hc, Bool.false_eq_true, if_false]
      exact ih effs h

/-- C1: the master cleanup of the IB `free_node_resources` never runs:
`net_res` is `None` when `net_res['master']` is tested, and
independently `_free_node_vfs` raises `NameError` at the first
relevant VM (`vf_unbind_vfio` is undefined).  So no run — in
particular the concrete run on the master host with the record present
(second conjunct), which reads the record and then propagates the
`NameError` — deletes the `opensm/pkeys` entry, frees the pkey index
or removes the key-value subtree. -/
theorem ib_free_never_master_cleanup :
    (∀ (name : String) (nodeRank : Nat) (vms : List Vm) (kv : Option IbRec),
      ((ib_free_node_resources name nodeRank vms kv).1.all
        (fun e => !(isMasterCleanupEff e))) = true) ∧
    ib_free_node_resources ("ib0") 0 [⟨0, 0, [("ib0")]⟩]
      (some ⟨true, 8192, 0, [(("vm-0"), ("0000:81:00.2"))]⟩) =
      ([.readRec], some ("NameError: global name vf_unbind_vfio is not defined")) := by
  constructor
  · intro name nodeRank vms kv
    unfold ib_free_node_resources
    have hloop := ibFreeVfsLoop_no_master name nodeRank kv vms [] rfl
    cases hr : (ibFreeVfsLoop name nodeRank kv vms []).2 with
    | some e => simpa [hr] using hloop
    | none => simpa [hr] using hloop
  · decide

/-! ## `free_node_resources` / `load_node_resources` without local VMs (C10)

Effect-level embeddings of the bridged, NAT and private-overlay free
and load phases.  Host-state reads that the source performs
(environment/random MAC generation, `ovs_get_port_id`) are supplied as
function parameters. -/

inductive HEff where
  | readRec
  | delTap (tap : String)
  | ovsDelPort (tap br : String)
  | ovsDelBr (br : String)
  | ovsDelFlows (br pat : String)
  | arpDel (ip hw br : String)
  | iptDel (rule chain table : String)
  | idaFree (idx : Int)
  | delNetSubtree
  | addEth (net tap hw : String) (hostPort : Option Nat)
deriving DecidableEq

structure BridgedRes where
  tap_name : String
deriving DecidableEq

structure NatRes where
  tap_name : String
  hwaddr : String
  nat_ip : String
  host_port : Option Nat
deriving DecidableEq

structure PvVmRes where
  tap_name : String
  hwaddr : String
  port_id : Nat
deriving DecidableEq

/-- Private-overlay allocation record: the `global` entry plus the
per-VM entries; `master` is the stored host rank (`-1` never occurs in
stored records but the local variable of the free phase starts there). -/
structure PvRec where
  bridge_name : String
  tun_id : Nat
  master : Int
  vms : List (String × PvVmRes)
deriving DecidableEq

/-- The loop shape shared by all `free_node_resources` /
`load_node_resources` implementations: skip VMs that are not on this
node or not on this network; at the first relevant VM load the
allocation record (`load_resources`, raising when the key is absent);
run the per-VM body, aborting on its error.  Returns the effect trace,
the loaded record (`net_res`) and the raised error. -/
def perVmLoop {R : Type} (name : String) (nodeRank : Nat) (kv : Option R)
    (body : R → Vm → List HEff × Option String) :
    List Vm → Option R → List HEff → List HEff × Option R × Option String
  | [], st, effs => (effs, st, none)
  | vm :: rest, st, effs =>
    if vm.host_rank == nodeRank && netMem name vm then
      match st, kv with
      | none, none =>
        (effs ++ [.readRec], none,
          some (("unable to load resources for network ") ++ name))
      | none, some r =>
        match body r vm with
        | (ves, none) =>
          perVmLoop name nodeRank kv body rest (some r) (effs ++ [.readRec] ++ ves)
        | (ves, some e) => (effs ++ [.readRec] ++ ves, some r, some e)
      | some r, _ =>
        match body r vm with
        | (ves, none) => perVmLoop name nodeRank kv body rest (some r) (effs ++ ves)
        | (ves, some e) => (effs ++ ves, some r, some e)
    else perVmLoop name nodeRank kv body rest st effs

/-- Per-VM body of `VBridgedNetwork.free_node_resources`
(`_cleanup_vm_res`: delete the tap). -/
def bridgedFreeVmBody (r : List (String × BridgedRes)) (vm : Vm) :
    List HEff × Option String :=
  match r.lookup (vm_res_label vm) with
  | none => ([], some (("KeyError: ") ++ vm_res_label vm))
  | some res => ([.delTap res.tap_name], none)

def bridged_free_node_resources (name : String) (nodeRank : Nat) (vms : List Vm)
    (kv : Option (List (String × BridgedRes))) : List HEff × Option String :=
  match perVmLoop name nodeRank kv bridgedFreeVmBody vms none [] with
  | (effs, _, err) => (effs, err)

/-- Per-VM body of `VBridgedNetwork.load_node_resources`; `hwOf`
models the `PCOCC_NET_<NAME>_HWADDR` override or the random
locally-administered MAC. -/
def bridgedLoadVmBody (name : String) (hwOf : Vm → String)
    (r : List (String × BridgedRes)) (vm : Vm) : List HEff × Option String :=
  match r.lookup (vm_res_label vm) with
  | none => ([], some (("KeyError: ") ++ vm_res_label vm))
  | some res => ([.addEth name res.tap_name (hwOf vm) none], none)

def bridged_load_node_resources (name : String) (nodeRank : Nat) (vms : List Vm)
    (kv : Option (List (String × BridgedRes))) (hwOf : Vm → String) :
    List HEff × Option String :=
  match perVmLoop name nodeRank kv (bridgedLoadVmBody name hwOf) vms none [] with
  | (effs, _, err) => (effs, err)

/-- The DNAT rule text of the reverse-NAT entries
(`-d <host>/32 -p tcp -m tcp --dport <host_port> -j DNAT
--to-destination <nat_ip>:<vm_rnat_port>`). -/
def natRnatRule (hostIp : String) (hostPort : Nat) (natIp : String)
    (vmPort : Nat) : String :=
  ("-d ") ++ hostIp ++ ("/32 -p tcp -m tcp --dport ") ++ String.mk (decStr hostPort) ++
  (" -j DNAT --to-destination ") ++ natIp ++ (":") ++ String.mk (decStr vmPort)

/-- Per-VM body of `VNATNetwork.free_node_resources`
(`_cleanup_vm_res`): delete the two NAT flows, the bridge port, the
tap, the permanent ARP entry and, if present, the reverse-NAT DNAT
rules; `portIdOf` models `ovs_get_port_id`. -/
def natFreeVmBody (br vmIp vmHw hostIp : String) (vmRnatPort : Nat)
    (portIdOf : String → Nat) (r : List (String × NatRes)) (vm : Vm) :
    List HEff × Option String :=
  match r.lookup (vm_res_label vm) with
  | none => ([], some (("KeyError: ") ++ vm_res_label vm))
  | some res =>
    let pid := portIdOf res.tap_name
    let base := [
      HEff.ovsDelFlows br (("table=0,in_port=") ++ String.mk (decStr pid) ++
        (",dl_type=0x0800,nw_src=") ++ vmIp),
      HEff.ovsDelFlows br (("table=0,in_port=local,dl_type=0x0800,nw_dst=") ++
        res.nat_ip),
      HEff.ovsDelPort res.tap_name br,
      HEff.delTap res.tap_name,
      HEff.arpDel res.nat_ip vmHw br]
    match res.host_port with
    | some hp =>
      (base ++ [
        HEff.iptDel (natRnatRule hostIp hp res.nat_ip vmRnatPort) ("PREROUTING") ("nat"),
        HEff.iptDel (natRnatRule hostIp hp res.nat_ip vmRnatPort) ("OUTPUT") ("nat")],
        none)
    | none => (base, none)

def nat_free_node_resources (name : String) (nodeRank : Nat) (vms : List Vm)
    (kv : Option (List (String × NatRes))) (br vmIp vmHw hostIp : String)
    (vmRnatPort : Nat) (portIdOf : String → Nat) : List HEff × Option String :=
  match perVmLoop name nodeRank kv
      (natFreeVmBody br vmIp vmHw hostIp vmRnatPort portIdOf) vms none [] with
  | (effs, _, err) => (effs, err)

/-- Per-VM body of `VNATNetwork.load_node_resources`: attach the
interface, passing the host port when the record has one. -/
def natLoadVmBody (name : String) (r : List (String × NatRes)) (vm : Vm) :
    List HEff × Option String :=
  match r.lookup (vm_res_label vm) with
  | none => ([], some (("KeyError: ") ++ vm_res_label vm))
  | some res => ([.addEth name res.tap_name res.hwaddr res.host_port], none)

def nat_load_node_resources (name : String) (nodeRank : Nat) (vms : List Vm)
    (kv : Option (List (String × NatRes))) : List HEff × Option String :=
  match perVmLoop name nodeRank kv (natLoadVmBody name) vms none [] with
  | (effs, _, err) => (effs, err)

/-- Per-VM body of `VPVNetwork.free_node_resources`: remove the tap
from the bridge and delete it. -/
def pvFreeVmBody (r : PvRec) (vm : Vm) : List HEff × Option String :=
  match r.vms.lookup (vm_res_label vm) with
  | none => ([], some (("KeyError: ") ++ vm_res_label vm))
  | some res => ([.ovsDelPort res.tap_name r.bridge_name, .delTap res.tap_name], none)

/-- `VPVNetwork.free_node_resources`: the per-VM loop, then — only
when the record was loaded — delete the bridge, and on the master free
the tunnel key (`tun_id - min_key`, `min_key = 1024`) and delete the
network's key-value subtree.  When no record was loaded `bridge_name`
is `None` and `master` is still `-1`, which cannot equal the
non-negative node rank. -/
def pv_free_node_resources (name : String) (nodeRank : Nat) (vms : List Vm)
    (kv : Option PvRec) : List HEff × Option String :=
  match perVmLoop name nodeRank kv pvFreeVmBody vms none [] with
  | (effs, _, some e) => (effs, some e)
  | (effs, st, none) =>
    match st with
    | some r =>
      let effs2 := effs ++ [.ovsDelBr r.bridge_name]
      if r.master == (nodeRank : Int) then
        (effs2 ++ [.idaFree ((r.tun_id : Int) - 1024), .delNetSubtree], none)
      else (effs2, none)
    | none => (effs, none)

/-- Per-VM body of `VPVNetwork.load_node_resources`. -/
def pvLoadVmBody (name : String) (r : PvRec) (vm : Vm) : List HEff × Option String :=
  match r.vms.lookup (vm_res_label vm) with
  | none => ([], some (("KeyError: ") ++ vm_res_label vm))
  | some res => ([.addEth name res.tap_name res.hwaddr none], none)

def pv_load_node_resources (name : String) (nodeRank : Nat) (vms : List Vm)
    (kv : Option PvRec) : List HEff × Option String :=
  match perVmLoop name nodeRank kv (pvLoadVmBody name) vms none [] with
  | (effs, _, err) => (effs, err)

theorem relevant_eq_false {name : String} {nodeRank : Nat} {vm : Vm}
    (h : ¬(vm.host_rank = nodeRank ∧ name ∈ vm.networks)) :
    (vm.host_rank == nodeRank && netMem name vm) = false := by
  by_cases h1 : vm.host_rank = nodeRank
  · have h2 : ¬(name ∈ vm.networks) := fun hm => h ⟨h1, hm⟩
    have hnm : netMem name vm = false := by
      cases hb : netMem name vm
      · rfl
      · exact absurd (List.mem_of_elem_eq_true hb) h2
    simp [hnm]
  · have hb1 : (vm.host_rank == nodeRank) = false := by
      cases hb : vm.host_rank == nodeRank
      · rfl
      · exact absurd (by simpa using hb) h1
    simp [hb1]

theorem perVmLoop_no_local {R : Type} (name : String) (nodeRank : Nat)
    (kv : Option R) (body : R → Vm → List HEff × Option String) :
    ∀ (l : List Vm),
      (∀ vm ∈ l, ¬(vm.host_rank = nodeRank ∧ name ∈ vm.networks)) →
      perVmLoop name nodeRank kv body l none [] = ([], none, none) := by
  intro l
  induction l with
  | nil => intro _; rfl
  | cons vm rest ih =>
    intro h
    unfold perVmLoop
    rw [relevant_eq_false (h vm (by simp))]
    simp only [Bool.false_eq_true, if_false]
    exact ih (fun v hv => h v (by simp [hv]))

/-- C10: for the bridged, NAT and private-overlay types, when no VM of
the network runs on this node `free_node_resources` and
`load_node_resources` are no-ops: the effect trace is empty (so no
allocation record is read and no host state is touched) and no error
is raised, for every key-value store content including an absent
record. -/
theorem free_load_noop_without_local_vms (name : String) (nodeRank : Nat)
    (vms : List Vm) (kvB : Option (List (String × BridgedRes)))
    (kvN : Option (List (String × NatRes))) (kvP : Option PvRec)
    (hwOf : Vm → String) (portIdOf : String → Nat)
    (br vmIp vmHw hostIp : String) (vmRnatPort : Nat)
    (h : ∀ vm ∈ vms, ¬(vm.host_rank = nodeRank ∧ name ∈ vm.networks)) :
    bridged_free_node_resources name nodeRank vms kvB = ([], none) ∧
    bridged_load_node_resources name nodeRank vms kvB hwOf = ([], none) ∧
    nat_free_node_resources name nodeRank vms kvN br vmIp vmHw hostIp vmRnatPort
      portIdOf = ([], none) ∧
    nat_load_node_resources name nodeRank vms kvN = ([], none) ∧
    pv_free_node_resources name nodeRank vms kvP = ([], none) ∧
    pv_load_node_resources name nodeRank vms kvP = ([], none) := by
  refine ⟨?_, ?_, ?_, ?_, ?_, ?_⟩
  · unfold bridged_free_node_resources
    rw [perVmLoop_no_local name nodeRank kvB bridgedFreeVmBody vms h]
  · unfold bridged_load_node_resources
    rw [perVmLoop_no_local name nodeRank kvB (bridgedLoadVmBody name hwOf) vms h]
  · unfold nat_free_node_resources
    rw [perVmLoop_no_local name nodeRank kvN
      (natFreeVmBody br vmIp vmHw hostIp vmRnatPort portIdOf) vms h]
  · unfold nat_load_node_resources
    rw [perVmLoop_no_local name nodeRank kvN (natLoadVmBody name) vms h]
  · unfold pv_free_node_resources
    rw [perVmLoop_no_local name nodeRank kvP pvFreeVmBody vms h]
  · unfold pv_load_node_resources
    rw [perVmLoop_no_local name nodeRank kvP (pvLoadVmBody name) vms h]

/-- Witness: a cluster whose VMs are either on another host or on
another network, applied with absent records. -/
theorem free_load_noop_without_local_vms_witness :
    (∀ vm ∈ [(⟨0, 1, [("pv0")]⟩ : Vm), ⟨1, 0, [("other")]⟩],
      ¬(vm.host_rank = 0 ∧ ("pv0") ∈ vm.networks)) ∧
    pv_free_node_resources ("pv0") 0 [⟨0, 1, [("pv0")]⟩, ⟨1, 0, [("other")]⟩] none =
      ([], none) ∧
    nat_free_node_resources ("pv0") 0 [⟨0, 1, [("pv0")]⟩, ⟨1, 0, [("other")]⟩] none
      ("natbr0") ("10.250.0.2") ("52:54:00:44:ae:5e") ("10.0.0.1") 22
      (fun _ => 1) = ([], none) :=
  ⟨by decide,
    (free_load_noop_without_local_vms ("pv0") 0
      [⟨0, 1, [("pv0")]⟩, ⟨1, 0, [("other")]⟩] none none none
      (fun _ => ("52:54:00:12:34:56")) (fun _ => 1) ("natbr0") ("10.250.0.2")
      ("52:54:00:44:ae:5e") ("10.0.0.1") 22 (by decide)).2.2.2.2.1,
    (free_load_noop_without_local_vms ("pv0") 0
      [⟨0, 1, [("pv0")]⟩, ⟨1, 0, [("other")]⟩] none none none
      (fun _ => ("52:54:00:12:34:56")) (fun _ => 1) ("natbr0") ("10.250.0.2")
      ("52:54:00:44:ae:5e") ("10.0.0.1") 22 (by decide)).2.2.1⟩

end Pcocc
